import Mathlib

/-!
Shallow embedding of the Acoustic Exposure Metrics Engine
(`Noise survey results 1.1.py`, class `DataProcessorApp.process_data` and its
helper functions).  Timestamps are modelled as an optional pair of a calendar
day number (days since the Unix epoch, matching Python `date` arithmetic where
`timedelta(days=1)` shifts the day number by one) and a clock time in seconds
since midnight; a missing/unparsable timestamp (`NaT`) is `none`.  Sound
levels are modelled as real numbers, a missing level (`NaN`) as `none`.
The string sentinels `""`, `"No Data"` and the period labels are kept exactly
as the source produces them; `Cell` models one output cell of the overall
metrics map, which in the source holds either a float or the string
`"No Data"`.
-/

namespace NoiseSurvey

/-- A parsed timestamp: `day` is the proleptic-Gregorian day number (days
since 1970-01-01, the arithmetic Python `datetime.date` implements), `sec`
the clock time in seconds since midnight. -/
structure DateTime where
  day : ℤ
  sec : ℕ
deriving DecidableEq

/-- Day number of a civil (proleptic Gregorian) date, days since 1970-01-01.
This is the arithmetic Python's `datetime.date` satisfies, used to state the
concrete calendar examples. -/
def daysFromCivil (y m d : ℤ) : ℤ :=
  let y' : ℤ := if m ≤ 2 then y - 1 else y
  let era : ℤ := Int.fdiv y' 400
  let yoe : ℤ := y' - era * 400
  let mp : ℤ := (m + 9) % 12
  let doy : ℤ := (153 * mp + 2) / 5 + d - 1
  let doe : ℤ := yoe * 365 + yoe / 4 - yoe / 100 + doy
  era * 146097 + doe - 719468

/-- Source `get_date_only`: `NaT ↦ NaT`; otherwise subtract one day when the
clock time is strictly before 07:00:00, else keep the calendar date. -/
def get_date_only (dt : Option DateTime) : Option ℤ :=
  match dt with
  | none => none
  | some x => if x.sec < 7 * 3600 then some (x.day - 1) else some x.day

/-- Source `classify_period` (inside `process_data`): `""` for `NaT`;
`"Night-time"` when the clock time is `≥ 23:00:00` or `< 07:00:00`, else
`"Daytime"`. -/
def classify_period (dt : Option DateTime) : String :=
  match dt with
  | none => ""
  | some x =>
    if 23 * 3600 ≤ x.sec ∨ x.sec < 7 * 3600 then "Night-time" else "Daytime"

/-- Source `classify_period_lden` (inside `process_data`): `""` for `NaT`;
`"Day"` on `[07:00,19:00)`, `"Evening"` on `[19:00,23:00)`, else
`"Night"`. -/
def classify_period_lden (dt : Option DateTime) : String :=
  match dt with
  | none => ""
  | some x =>
    if 7 * 3600 ≤ x.sec ∧ x.sec < 19 * 3600 then "Day"
    else if 19 * 3600 ≤ x.sec ∧ x.sec < 23 * 3600 then "Evening"
    else "Night"

/-- One row of the input sheet after parsing: optional timestamp and the four
optional level columns. -/
structure Measurement where
  dateTime : Option DateTime
  laeq : Option ℝ
  lamax : Option ℝ
  la90 : Option ℝ
  lamin : Option ℝ

/-- One cell of the overall-metrics map: a number or the `"No Data"`
sentinel. -/
inductive Cell (α : Type) where
  | noData
  | num (x : α)
deriving DecidableEq

/-- Rendering of a fallible helper result into the metrics map, as in
`x if x is not None else "No Data"`. -/
def renderOpt {α : Type} (o : Option α) : Cell α :=
  match o with
  | none => Cell.noData
  | some x => Cell.num x

/-- Conversion of a dB level to linear power, `10 ** (x / 10)`. -/
noncomputable def linPow (L : ℝ) : ℝ := (10 : ℝ) ^ (L / 10)

/-- Arithmetic mean of a list, as `Series.mean()` over the retained values. -/
noncomputable def listMean (xs : List ℝ) : ℝ := xs.sum / xs.length

/-- Energy average of an already non-missing level list:
`10 * np.log10(series.apply(lambda x: 10 ** (x / 10)).mean())` guarded by the
source's emptiness check, `None`/`"No Data"` when empty. -/
noncomputable def eavg (xs : List ℝ) : Option ℝ :=
  if xs.isEmpty then none
  else some (10 * Real.logb 10 (listMean (xs.map linPow)))

/-- Energy average of a level column: drop missing entries, then `eavg`. -/
noncomputable def energy_average (levels : List (Option ℝ)) : Option ℝ :=
  eavg (levels.filterMap id)

/-- The non-missing `LAeq` values of the rows whose `Period_lden` equals `p`:
`df.loc[df['Period_lden'] == p, "LAeq"].dropna()`. -/
def ldenSubset (df : List Measurement) (p : String) : List ℝ :=
  ((df.filter fun r => decide (classify_period_lden r.dateTime = p)).map
    fun r => r.laeq).filterMap id

/-- The non-missing `LAeq` values of the rows whose `Period` equals `p`:
`df.loc[df['Period'] == p, "LAeq"].dropna()`. -/
def simpleSubset (df : List Measurement) (p : String) : List ℝ :=
  ((df.filter fun r => decide (classify_period r.dateTime = p)).map
    fun r => r.laeq).filterMap id

/-- The Lden combination formula of the source:
`10*np.log10((12/24)*10**(d/10) + (4/24)*10**((e+5)/10) + (8/24)*10**((n+10)/10))`. -/
noncomputable def ldenFormula (d e n : ℝ) : ℝ :=
  10 * Real.logb 10
    ((12 / 24) * (10 : ℝ) ^ (d / 10) + (4 / 24) * (10 : ℝ) ^ ((e + 5) / 10) +
      (8 / 24) * (10 : ℝ) ^ ((n + 10) / 10))

/-- The overall Lden pipeline: energy-average `LAeq` over the three
`Period_lden` subsets; if any is `None` the result is `"No Data"`, otherwise
the weighted combination. -/
noncomputable def computeLden (df : List Measurement) : Cell ℝ :=
  match eavg (ldenSubset df "Day"), eavg (ldenSubset df "Evening"),
      eavg (ldenSubset df "Night") with
  | some d, some e, some n => Cell.num (ldenFormula d e n)
  | _, _, _ => Cell.noData

/-- Population standard deviation, the quantity `np.std` (with its default
`ddof=0`) computes: the square root of the mean of squared deviations. -/
noncomputable def np_std (xs : List ℝ) : ℝ :=
  Real.sqrt (listMean (xs.map fun x => (x - listMean xs) ^ 2))

/-- The overall `LAeq` standard-deviation entry:
`np.std(subset) if not subset.empty else "No Data"`. -/
noncomputable def overallLAeqStd (df : List Measurement) (p : String) : Cell ℝ :=
  if (simpleSubset df p).isEmpty then Cell.noData
  else Cell.num (np_std (simpleSubset df p))

/-- Modelled from the spec: the sample standard deviation the spec names as
the required convention, with the `n - 1` divisor.  Stated only to be
compared with the source's `np.std`. -/
noncomputable def sample_std (xs : List ℝ) : ℝ :=
  Real.sqrt ((xs.map fun x => (x - listMean xs) ^ 2).sum / ((xs.length : ℝ) - 1))

/-- Daily LAeq path of the source: mean of the pre-derived
`Integrated_LAeq` column (`10 ** (laeq / 10)` stored per row, `NaN` kept for
missing `laeq`), then `10 * np.log10`, guarded by the source's two emptiness
checks. -/
noncomputable def dailyLAeq (rows : List Measurement) : Cell ℝ :=
  if rows.isEmpty then Cell.noData
  else if ((rows.map fun r => Option.map linPow r.laeq).filterMap id).isEmpty then
    Cell.noData
  else
    Cell.num (10 * Real.logb 10
      (listMean ((rows.map fun r => Option.map linPow r.laeq).filterMap id)))

/-- Inline LAeq path of the source (`Lden`/`Ldn` style): drop missing raw
`laeq` values, convert to linear power inline, mean, `10 * np.log10`. -/
noncomputable def inlineLAeq (rows : List Measurement) : Cell ℝ :=
  if ((rows.map fun r => r.laeq).filterMap id).isEmpty then Cell.noData
  else
    Cell.num (10 * Real.logb 10
      (listMean (((rows.map fun r => r.laeq).filterMap id).map linPow)))

/-- Value at 1-based rank `n` of an already sorted list, `None` when fewer
than `n` values exist (`series.iloc[n-1] if len(series) >= n else None`). -/
def rankSelect (s : List ℚ) (n : ℕ) : Option ℚ :=
  if n ≤ s.length then s[n - 1]? else none

/-- Source `nth_highest`: drop missing values, sort descending, value at
1-based rank `n`, `None` when fewer than `n` values exist. -/
def nth_highest (l : List (Option ℚ)) (n : ℕ) : Option ℚ :=
  rankSelect ((l.filterMap id).mergeSort fun a b => decide (b ≤ a)) n

/-- Source `nth_lowest`: drop missing values, sort ascending, value at
1-based rank `n`, `None` when fewer than `n` values exist. -/
def nth_lowest (l : List (Option ℚ)) (n : ℕ) : Option ℚ :=
  rankSelect ((l.filterMap id).mergeSort fun a b => decide (a ≤ b)) n

/-- The list `Series.mode()` returns: the distinct values of maximal
multiplicity, sorted ascending. -/
def seriesMode (l : List ℚ) : List ℚ :=
  (l.dedup.filter fun x => decide (∀ y ∈ l, l.count y ≤ l.count x)).mergeSort
    fun a b => decide (a ≤ b)

/-- First entry of `Series.mode()` (`mode().iloc[0]`): the smallest among the
most frequently occurring values; `none` on an empty list. -/
def mode (l : List ℚ) : Option ℚ := (seriesMode l).head?

/-- The LA90 mode entry of the metrics map: `"No Data"` when no non-missing
value exists, otherwise `mode().iloc[0]` of the retained values. -/
def la90Mode (l : List (Option ℚ)) : Cell ℚ :=
  if (l.filterMap id).isEmpty then Cell.noData
  else renderOpt (mode (l.filterMap id))

lemma eavg_eq_none_iff (xs : List ℝ) : eavg xs = none ↔ xs = [] := by
  unfold eavg
  split_ifs with h <;> simp_all [List.isEmpty_iff]

lemma eavg_replicate (x : ℝ) (n : ℕ) (hn : 0 < n) :
    eavg (List.replicate n x) = some x := by
  unfold eavg
  rw [if_neg (by simp [List.isEmpty_iff, List.replicate_eq_nil_iff]; omega)]
  congr 1
  rw [List.map_replicate]
  unfold listMean
  rw [List.sum_replicate, List.length_replicate, nsmul_eq_mul,
    mul_div_cancel_left₀ _ (Nat.cast_ne_zero.mpr hn.ne' : (n : ℝ) ≠ 0)]
  unfold linPow
  rw [Real.logb_rpow (by norm_num) (by norm_num)]
  ring

lemma eavg_singleton (x : ℝ) : eavg [x] = some x := by
  rw [← List.replicate_one]
  exact eavg_replicate x 1 one_pos

lemma filterMap_id_replicate_some (x : ℝ) (n : ℕ) :
    (List.replicate n (some x)).filterMap id = List.replicate n x := by
  induction n with
  | zero => rfl
  | succ n ih => simp [List.replicate_succ, ih]

lemma filterMap_map_linPow (rows : List Measurement) :
    (rows.map fun r => Option.map linPow r.laeq).filterMap id =
      ((rows.map fun r => r.laeq).filterMap id).map linPow := by
  induction rows with
  | nil => rfl
  | cons r rs ih => cases h : r.laeq <;> simp [h, ih]

lemma computeLden_noData_iff (df : List Measurement) :
    computeLden df = Cell.noData ↔
      (eavg (ldenSubset df "Day") = none ∨ eavg (ldenSubset df "Evening") = none ∨
        eavg (ldenSubset df "Night") = none) := by
  unfold computeLden
  rcases hd : eavg (ldenSubset df "Day") with _ | d <;>
    rcases he : eavg (ldenSubset df "Evening") with _ | e <;>
      rcases hn : eavg (ldenSubset df "Night") with _ | n <;> simp

lemma classify_period_night_iff (dt : Option DateTime) :
    classify_period dt = "Night-time" ↔ classify_period_lden dt = "Night" := by
  cases dt with
  | none => simp [classify_period, classify_period_lden]
  | some x =>
    simp only [classify_period, classify_period_lden]
    rcases x with ⟨day, sec⟩
    dsimp only
    split_ifs with h1 h2 h3 <;> simp_all <;> omega

lemma classify_period_day_iff (dt : Option DateTime) :
    classify_period dt = "Daytime" ↔
      (classify_period_lden dt = "Day" ∨ classify_period_lden dt = "Evening") := by
  cases dt with
  | none => simp [classify_period, classify_period_lden]
  | some x =>
    simp only [classify_period, classify_period_lden]
    rcases x with ⟨day, sec⟩
    dsimp only
    split_ifs with h1 h2 h3 <;> simp_all <;> omega

/-- C10: the two period partitions agree: a row is `Night-time` under the
simple classification exactly when it is `Night` under the Lden
classification, `Daytime` exactly when it is `Day` or `Evening`, and hence
the Ldn night subset and the Lden night subset of any dataset are the same
list of rows. -/
theorem period_partition_consistent :
    (∀ dt : Option DateTime,
      classify_period dt = "Night-time" ↔ classify_period_lden dt = "Night") ∧
    (∀ dt : Option DateTime,
      classify_period dt = "Daytime" ↔
        (classify_period_lden dt = "Day" ∨ classify_period_lden dt = "Evening")) ∧
    (∀ df : List Measurement,
      (df.filter fun r => decide (classify_period r.dateTime = "Night-time")) =
        df.filter fun r => decide (classify_period_lden r.dateTime = "Night")) := by
  refine ⟨classify_period_night_iff, classify_period_day_iff, fun df => ?_⟩
  apply List.filter_congr
  intro r _
  exact decide_eq_decide.mpr (classify_period_night_iff r.dateTime)

/-- C5: the reporting date is the calendar date minus one day for clock
times strictly before 07:00:00, the calendar date unchanged otherwise, and
`NaT` for an invalid timestamp; in particular 2024-03-02 06:59:59 buckets to
2024-03-01 and 2024-03-02 07:00:00 buckets to 2024-03-02. -/
theorem get_date_only_spec :
    get_date_only none = none ∧
    (∀ (day : ℤ) (sec : ℕ), sec < 7 * 3600 →
      get_date_only (some ⟨day, sec⟩) = some (day - 1)) ∧
    (∀ (day : ℤ) (sec : ℕ), 7 * 3600 ≤ sec →
      get_date_only (some ⟨day, sec⟩) = some day) ∧
    get_date_only (some ⟨daysFromCivil 2024 3 2, 6 * 3600 + 59 * 60 + 59⟩) =
      some (daysFromCivil 2024 3 1) ∧
    get_date_only (some ⟨daysFromCivil 2024 3 2, 7 * 3600⟩) =
      some (daysFromCivil 2024 3 2) := by
  refine ⟨rfl, ?_, ?_, by decide, by decide⟩
  · intro day sec h
    simp only [get_date_only]
    rw [if_pos h]
  · intro day sec h
    simp only [get_date_only]
    rw [if_neg (by omega)]

theorem get_date_only_spec_witness :
    get_date_only (some ⟨0, 0⟩) = some (-1) ∧
    get_date_only (some ⟨5, 7 * 3600⟩) = some 5 :=
  ⟨get_date_only_spec.2.1 0 0 (by norm_num), get_date_only_spec.2.2.1 5 (7 * 3600) le_rfl⟩

/-- C6: the classifiers depend only on the timestamp; `classify_period`
is `""` (Unknown) on `NaT`, `"Night-time"` exactly on clock times `≥ 23:00`
or `< 07:00` and `"Daytime"` exactly on `[07:00, 23:00)`;
`classify_period_lden` is `""` on `NaT`, `"Day"` exactly on `[07:00,19:00)`,
`"Evening"` exactly on `[19:00,23:00)` and `"Night"` otherwise; the
boundaries 23:00:00 and 07:00:00 classify as `"Night-time"` and
`"Daytime"`. -/
theorem classify_period_spec :
    (classify_period none = "" ∧ classify_period_lden none = "") ∧
    (∀ (day : ℤ) (sec : ℕ),
      (classify_period (some ⟨day, sec⟩) = "Night-time" ↔
        23 * 3600 ≤ sec ∨ sec < 7 * 3600) ∧
      (classify_period (some ⟨day, sec⟩) = "Daytime" ↔
        7 * 3600 ≤ sec ∧ sec < 23 * 3600)) ∧
    (∀ (day : ℤ) (sec : ℕ),
      (classify_period_lden (some ⟨day, sec⟩) = "Day" ↔
        7 * 3600 ≤ sec ∧ sec < 19 * 3600) ∧
      (classify_period_lden (some ⟨day, sec⟩) = "Evening" ↔
        19 * 3600 ≤ sec ∧ sec < 23 * 3600) ∧
      (classify_period_lden (some ⟨day, sec⟩) = "Night" ↔
        sec < 7 * 3600 ∨ 23 * 3600 ≤ sec)) ∧
    classify_period (some ⟨0, 23 * 3600⟩) = "Night-time" ∧
    classify_period (some ⟨0, 7 * 3600⟩) = "Daytime" := by
  refine ⟨⟨rfl, rfl⟩, ?_, ?_, by decide, by decide⟩
  · intro day sec
    simp only [classify_period]
    constructor <;> (split_ifs with h <;> simp_all <;> omega)
  · intro day sec
    simp only [classify_period_lden]
    refine ⟨?_, ?_, ?_⟩ <;> (split_ifs with h1 h2 <;> simp_all <;> omega)

/-- C1: the energy average drops missing entries, converts every retained
level `L` to linear power `10^(L/10)`, takes the arithmetic mean of those
powers and returns `10*log10` of it; it is `None` (NoData) exactly when no
non-missing value remains, and for `n > 0` copies of one value `x` — in
particular a single value — it returns exactly `x`. -/
theorem energy_average_spec :
    (∀ l : List (Option ℝ), l.filterMap id = [] → energy_average l = none) ∧
    (∀ l : List (Option ℝ), l.filterMap id ≠ [] →
      energy_average l =
        some (10 * Real.logb 10 (listMean ((l.filterMap id).map linPow)))) ∧
    (∀ (x : ℝ) (n : ℕ), 0 < n →
      energy_average (List.replicate n (some x)) = some x) ∧
    (∀ x : ℝ, energy_average [some x] = some x) := by
  refine ⟨?_, ?_, ?_, ?_⟩
  · intro l h
    unfold energy_average
    rw [h]
    rfl
  · intro l h
    unfold energy_average eavg
    rw [if_neg (by simp [List.isEmpty_iff, h])]
  · intro x n hn
    unfold energy_average
    rw [filterMap_id_replicate_some]
    exact eavg_replicate x n hn
  · intro x
    exact eavg_singleton x

theorem energy_average_spec_witness :
    energy_average (List.replicate 3 (some (60 : ℝ))) = some 60 ∧
    energy_average [(none : Option ℝ)] = none :=
  ⟨energy_average_spec.2.2.1 60 3 (by norm_num), energy_average_spec.1 [none] rfl⟩

/-- C2: the overall Lden partitions the dataset by the Lden classification,
energy-averages `LAeq` over the `Day`, `Evening` and `Night` subsets, is
`"No Data"` exactly when at least one of the three subsets has no
non-missing `LAeq` value, and otherwise applies the fixed 12/4/8-hour
weighted formula with the +5 dB evening and +10 dB night penalties. -/
theorem computeLden_spec (df : List Measurement) :
    (computeLden df = Cell.noData ↔
      (ldenSubset df "Day" = [] ∨ ldenSubset df "Evening" = [] ∨
        ldenSubset df "Night" = [])) ∧
    (∀ d e n : ℝ, eavg (ldenSubset df "Day") = some d →
      eavg (ldenSubset df "Evening") = some e →
      eavg (ldenSubset df "Night") = some n →
      computeLden df = Cell.num (ldenFormula d e n)) := by
  constructor
  · rw [computeLden_noData_iff, eavg_eq_none_iff, eavg_eq_none_iff, eavg_eq_none_iff]
  · intro d e n hd he hn
    unfold computeLden
    rw [hd, he, hn]

theorem computeLden_spec_witness :
    computeLden
      [⟨some ⟨0, 8 * 3600⟩, some 55, none, none, none⟩,
       ⟨some ⟨0, 20 * 3600⟩, some 55, none, none, none⟩,
       ⟨some ⟨0, 23 * 3600 + 1800⟩, some 45, none, none, none⟩] =
      Cell.num (ldenFormula 55 55 45) := by
  refine (computeLden_spec _).2 55 55 45 ?_ ?_ ?_
  · exact eavg_singleton 55
  · exact eavg_singleton 55
  · exact eavg_singleton 45

/-- C9: for every list of rows the daily LAeq computed from the pre-derived
linear-power column equals the LAeq computed by converting the raw `laeq`
values inline, including agreement of the NoData guards — the two
conversion paths are numerically identical. -/
theorem daily_inline_LAeq_equiv (rows : List Measurement) :
    dailyLAeq rows = inlineLAeq rows := by
  unfold dailyLAeq inlineLAeq
  rw [filterMap_map_linPow]
  cases rows with
  | nil => rfl
  | cons r rs =>
    rw [if_neg (by simp)]
    by_cases hxs : ((r :: rs).map fun x => x.laeq).filterMap id = []
    · rw [hxs]
      rfl
    · rw [if_neg (fun h => hxs (by simpa using List.isEmpty_iff.mp h)),
        if_neg (fun h => hxs (by simpa using List.isEmpty_iff.mp h))]

/-- C3 counterexample: for the Daytime values {0 dB, 2 dB} the engine's
overall standard deviation is the population value 1 (the `np.std` default,
n divisor), while the sample standard deviation the claim requires is √2,
and the two differ. -/
theorem overallLAeqStd_counterexample :
    overallLAeqStd
      [⟨some ⟨0, 8 * 3600⟩, some 0, none, none, none⟩,
       ⟨some ⟨0, 9 * 3600⟩, some 2, none, none, none⟩] "Daytime" =
      Cell.num 1 ∧
    sample_std (simpleSubset
      [⟨some ⟨0, 8 * 3600⟩, some 0, none, none, none⟩,
       ⟨some ⟨0, 9 * 3600⟩, some 2, none, none, none⟩] "Daytime") =
      Real.sqrt 2 ∧
    (1 : ℝ) ≠ Real.sqrt 2 := by
  have hs : simpleSubset
      [⟨some ⟨0, 8 * 3600⟩, some 0, none, none, none⟩,
       ⟨some ⟨0, 9 * 3600⟩, some 2, none, none, none⟩] "Daytime" = [(0 : ℝ), 2] := rfl
  have hmean : listMean [(0 : ℝ), 2] = 1 := by
    norm_num [listMean]
  refine ⟨?_, ?_, ?_⟩
  · unfold overallLAeqStd
    rw [hs, if_neg (by simp)]
    congr 1
    unfold np_std
    rw [hmean]
    norm_num [listMean]
  · rw [hs]
    unfold sample_std
    rw [hmean]
    norm_num [listMean]
  · intro h
    have h2 := Real.sqrt_eq_one.mp h.symm
    norm_num at h2

/-- C3 amended: the overall LAeq standard deviation for a period subset is
NoData exactly when the subset has no non-missing value, and otherwise is
the population standard deviation (n divisor) of the values: a nonnegative
`r` with `r² · n = Σ (x − mean)²`. -/
theorem overallLAeqStd_spec (df : List Measurement) (p : String) :
    (overallLAeqStd df p = Cell.noData ↔ simpleSubset df p = []) ∧
    (simpleSubset df p ≠ [] →
      ∃ r, overallLAeqStd df p = Cell.num r ∧ 0 ≤ r ∧
        r ^ 2 * (simpleSubset df p).length =
          ((simpleSubset df p).map
            fun x => (x - listMean (simpleSubset df p)) ^ 2).sum) := by
  constructor
  · unfold overallLAeqStd
    split_ifs with h <;> simp_all [List.isEmpty_iff]
  · intro hne
    refine ⟨np_std (simpleSubset df p), ?_, Real.sqrt_nonneg _, ?_⟩
    · unfold overallLAeqStd
      rw [if_neg (by simp [List.isEmpty_iff, hne])]
    · have hnn : 0 ≤ listMean ((simpleSubset df p).map
          fun x => (x - listMean (simpleSubset df p)) ^ 2) := by
        unfold listMean
        apply div_nonneg _ (Nat.cast_nonneg _)
        apply List.sum_nonneg
        intro y hy
        obtain ⟨x, hx, rfl⟩ := List.mem_map.mp hy
        positivity
      have hlen : ((simpleSubset df p).length : ℝ) ≠ 0 :=
        Nat.cast_ne_zero.mpr fun h0 => hne (List.length_eq_zero.mp h0)
      unfold np_std
      rw [Real.sq_sqrt hnn]
      unfold listMean
      rw [List.length_map, div_mul_cancel₀ _ hlen]

theorem overallLAeqStd_spec_witness :
    ∃ r, overallLAeqStd [⟨some ⟨0, 8 * 3600⟩, some 0, none, none, none⟩]
        "Daytime" = Cell.num r ∧ 0 ≤ r ∧
      r ^ 2 * (simpleSubset [⟨some ⟨0, 8 * 3600⟩, some 0, none, none, none⟩]
          "Daytime").length =
        ((simpleSubset [⟨some ⟨0, 8 * 3600⟩, some 0, none, none, none⟩]
            "Daytime").map
          fun x => (x - listMean (simpleSubset
            [⟨some ⟨0, 8 * 3600⟩, some 0, none, none, none⟩] "Daytime")) ^ 2).sum :=
  (overallLAeqStd_spec [⟨some ⟨0, 8 * 3600⟩, some 0, none, none, none⟩]
    "Daytime").2 (by
      intro h
      have hs : simpleSubset [⟨some ⟨0, 8 * 3600⟩, some 0, none, none, none⟩]
          "Daytime" = [(0 : ℝ)] := rfl
      rw [hs] at h
      exact List.cons_ne_nil _ _ h)

lemma rpow_half_sq : ((10:ℝ) ^ ((1:ℝ)/2)) ^ (2:ℕ) = 10 := by
  rw [← Real.rpow_natCast ((10:ℝ) ^ ((1:ℝ)/2)) 2,
    ← Real.rpow_mul (by norm_num : (0:ℝ) ≤ 10)]
  norm_num

lemma sqrtTen_lb : (3.1622776 : ℝ) < (10:ℝ) ^ ((1:ℝ)/2) := by
  have ha : (0:ℝ) ≤ (10:ℝ) ^ ((1:ℝ)/2) :=
    le_of_lt (Real.rpow_pos_of_pos (by norm_num) _)
  apply lt_of_pow_lt_pow_left₀ 2 ha
  rw [rpow_half_sq]
  norm_num

lemma sqrtTen_ub : (10:ℝ) ^ ((1:ℝ)/2) < 3.1622777 := by
  apply lt_of_pow_lt_pow_left₀ 2 (by norm_num)
  rw [rpow_half_sq]
  norm_num

lemma ldenFormula_value :
    ldenFormula 55 55 45 =
      50 + 10 * Real.logb 10 ((5 * (10:ℝ) ^ ((1:ℝ)/2) + 10) / 6) := by
  have h55 : (10:ℝ) ^ ((55:ℝ)/10) = 100000 * (10:ℝ) ^ ((1:ℝ)/2) := by
    rw [show (55:ℝ)/10 = (5:ℝ) + (1:ℝ)/2 by norm_num, Real.rpow_add (by norm_num)]
    congr 1
    rw [show (5:ℝ) = ((5:ℕ):ℝ) by norm_num, Real.rpow_natCast]
    norm_num
  have h60 : (10:ℝ) ^ (((55:ℝ)+5)/10) = 1000000 := by
    rw [show ((55:ℝ)+5)/10 = ((6:ℕ):ℝ) by norm_num, Real.rpow_natCast]
    norm_num
  have h45 : (10:ℝ) ^ (((45:ℝ)+10)/10) = 100000 * (10:ℝ) ^ ((1:ℝ)/2) := by
    rw [show ((45:ℝ)+10)/10 = (55:ℝ)/10 by norm_num]
    exact h55
  unfold ldenFormula
  rw [h55, h60, h45]
  rw [show (12/24) * (100000 * (10:ℝ)^((1:ℝ)/2)) + (4/24) * 1000000 +
      (8/24) * (100000 * (10:ℝ)^((1:ℝ)/2)) =
      100000 * ((5 * (10:ℝ)^((1:ℝ)/2) + 10)/6) from by ring]
  rw [Real.logb_mul (by norm_num) (by positivity)]
  rw [show (100000:ℝ) = (10:ℝ) ^ ((5:ℝ)) from by
    rw [show (5:ℝ) = ((5:ℕ):ℝ) by norm_num, Real.rpow_natCast]; norm_num]
  rw [Real.logb_rpow (by norm_num) (by norm_num)]
  ring

set_option maxRecDepth 20000 in
set_option exponentiation.threshold 8000 in
lemma pow_bound_low : (10:ℕ)^6633 < 4301898^1000 := by decide

set_option maxRecDepth 20000 in
set_option exponentiation.threshold 8000 in
lemma pow_bound_high : (43018981:ℕ)^200 < 10^1527 := by decide

lemma rpow_lb : (10:ℝ) ^ ((0.633:ℝ)) < 4301898 / 1000000 := by
  have key : ((10:ℝ) ^ ((0.633:ℝ))) ^ (1000:ℕ) <
      ((4301898:ℝ) / 1000000) ^ (1000:ℕ) := by
    have e1 : ((10:ℝ) ^ ((0.633:ℝ))) ^ (1000:ℕ) = (10:ℝ) ^ (633:ℕ) := by
      rw [← Real.rpow_natCast ((10:ℝ) ^ ((0.633:ℝ))) 1000,
        ← Real.rpow_mul (by norm_num : (0:ℝ) ≤ 10)]
      rw [show (0.633:ℝ) * ((1000:ℕ):ℝ) = ((633:ℕ):ℝ) by norm_num]
      exact Real.rpow_natCast 10 633
    rw [e1, div_pow, lt_div_iff₀ (by positivity)]
    have hn : ((10:ℕ)^633 * 1000000^1000 : ℕ) < ((4301898:ℕ)^1000 : ℕ) := by
      have e2 : (10:ℕ)^633 * 1000000^1000 = 10^6633 := by
        rw [show (1000000:ℕ) = 10^6 by norm_num, ← pow_mul, ← pow_add]
      rw [e2]
      exact pow_bound_low
    exact_mod_cast hn
  exact lt_of_pow_lt_pow_left₀ 1000 (by positivity) key

lemma rpow_ub : (43018981:ℝ) / 10000000 < (10:ℝ) ^ ((0.635:ℝ)) := by
  have key : ((43018981:ℝ) / 10000000) ^ (200:ℕ) <
      ((10:ℝ) ^ ((0.635:ℝ))) ^ (200:ℕ) := by
    have e1 : ((10:ℝ) ^ ((0.635:ℝ))) ^ (200:ℕ) = (10:ℝ) ^ (127:ℕ) := by
      rw [← Real.rpow_natCast ((10:ℝ) ^ ((0.635:ℝ))) 200,
        ← Real.rpow_mul (by norm_num : (0:ℝ) ≤ 10)]
      rw [show (0.635:ℝ) * ((200:ℕ):ℝ) = ((127:ℕ):ℝ) by norm_num]
      exact Real.rpow_natCast 10 127
    rw [e1, div_pow, div_lt_iff₀ (by positivity)]
    have hn : ((43018981:ℕ)^200 : ℕ) < 10^127 * 10000000^200 := by
      have e2 : (10:ℕ)^127 * 10000000^200 = 10^1527 := by
        rw [show (10000000:ℕ) = 10^7 by norm_num, ← pow_mul, ← pow_add]
      rw [e2]
      exact pow_bound_high
    exact_mod_cast hn
  exact lt_of_pow_lt_pow_left₀ 200 (by positivity) key

lemma logb_u_bounds :
    (0.633:ℝ) < Real.logb 10 ((5 * (10:ℝ) ^ ((1:ℝ)/2) + 10) / 6) ∧
    Real.logb 10 ((5 * (10:ℝ) ^ ((1:ℝ)/2) + 10) / 6) < 0.635 := by
  have ha1 := sqrtTen_lb
  have ha2 := sqrtTen_ub
  have hu_pos : (0:ℝ) < (5 * (10:ℝ) ^ ((1:ℝ)/2) + 10) / 6 := by positivity
  constructor
  · rw [Real.lt_logb_iff_rpow_lt (by norm_num) hu_pos]
    calc (10:ℝ) ^ ((0.633:ℝ)) < 4301898 / 1000000 := rpow_lb
    _ ≤ (5 * (10:ℝ) ^ ((1:ℝ)/2) + 10) / 6 := by linarith
  · rw [Real.logb_lt_iff_lt_rpow (by norm_num) hu_pos]
    calc (5 * (10:ℝ) ^ ((1:ℝ)/2) + 10) / 6 ≤ 43018981 / 10000000 := by linarith
    _ < (10:ℝ) ^ ((0.635:ℝ)) := rpow_ub

/-- C4 counterexample: for LAeq_day = 55, LAeq_evening = 55,
LAeq_night = 45 the Lden the engine formula produces is not within
±0.01 dB of 54.0 (it exceeds 56.33 dB). -/
theorem lden_example_counterexample :
    ¬ |ldenFormula 55 55 45 - 54| ≤ 0.01 := by
  rw [ldenFormula_value]
  intro h
  have h1 := (abs_le.mp h).2
  have h2 := logb_u_bounds.1
  linarith

/-- C4 amended: for LAeq_day = 55, LAeq_evening = 55, LAeq_night = 45 the
Lden produced by the engine formula is approximately 56.34 dB, reproduced to
within ±0.01 dB. -/
theorem lden_example_approx :
    |ldenFormula 55 55 45 - 56.34| ≤ 0.01 := by
  rw [ldenFormula_value, abs_le]
  have h1 := logb_u_bounds.1
  have h2 := logb_u_bounds.2
  constructor <;> linarith

lemma mode_spec_aux (l : List ℚ) (hl : l ≠ []) :
    ∃ m, mode l = some m ∧ m ∈ l ∧ (∀ x ∈ l, l.count x ≤ l.count m) ∧
      (∀ x ∈ l, l.count x = l.count m → m ≤ x) := by
  obtain ⟨m₀, hm₀⟩ : ∃ m₀, l.argmax (fun x => l.count x) = some m₀ := by
    cases h : l.argmax fun x => l.count x with
    | none => exact absurd (List.argmax_eq_none.mp h) hl
    | some m => exact ⟨m, rfl⟩
  have hm₀l : m₀ ∈ l := List.argmax_mem hm₀
  have hm₀max : ∀ y ∈ l, l.count y ≤ l.count m₀ := fun y hy =>
    List.le_of_mem_argmax hy hm₀
  have hmemF : ∀ x : ℚ,
      (x ∈ l.dedup.filter fun x => decide (∀ y ∈ l, l.count y ≤ l.count x)) ↔
        (x ∈ l ∧ ∀ y ∈ l, l.count y ≤ l.count x) := by
    intro x
    rw [List.mem_filter, List.mem_dedup]
    simp
  have hSmem : ∀ x : ℚ, x ∈ seriesMode l ↔
      x ∈ l.dedup.filter fun x => decide (∀ y ∈ l, l.count y ≤ l.count x) := by
    intro x
    unfold seriesMode
    exact List.mem_mergeSort
  have hS_ne : seriesMode l ≠ [] := by
    intro h
    have hmem := (hSmem m₀).mpr ((hmemF m₀).mpr ⟨hm₀l, hm₀max⟩)
    rw [h] at hmem
    exact absurd hmem (List.not_mem_nil m₀)
  obtain ⟨m, T, hMT⟩ : ∃ m T, seriesMode l = m :: T := by
    cases h : seriesMode l with
    | nil => exact absurd h hS_ne
    | cons a t => exact ⟨a, t, rfl⟩
  have hsorted : (seriesMode l).Pairwise fun a b : ℚ => a ≤ b := by
    have hp := @List.sorted_mergeSort ℚ (fun a b : ℚ => decide (a ≤ b))
      (fun a b c h1 h2 => by
        simp only [decide_eq_true_eq] at *
        exact le_trans h1 h2)
      (fun a b => by simpa using le_total a b)
      (l.dedup.filter fun x => decide (∀ y ∈ l, l.count y ≤ l.count x))
    exact (List.Pairwise.imp (fun h => of_decide_eq_true h)) hp
  obtain ⟨hml, hmmax⟩ := (hmemF m).mp ((hSmem m).mp (hMT ▸ List.mem_cons_self m T))
  refine ⟨m, ?_, hml, hmmax, ?_⟩
  · unfold mode
    rw [hMT]
    rfl
  · intro x hx hcnt
    have hxF := (hmemF x).mpr
      ⟨hx, fun y hy => le_trans (hmmax y hy) (le_of_eq hcnt.symm)⟩
    have hxS : x ∈ seriesMode l := (hSmem x).mpr hxF
    rw [hMT] at hxS hsorted
    rcases List.mem_cons.mp hxS with rfl | hxT
    · exact le_refl x
    · exact (List.pairwise_cons.mp hsorted).1 x hxT

unseal List.merge List.mergeSort in
lemma mode_example1 : mode [70, 70, 65] = some 70 := by decide

unseal List.merge List.mergeSort in
lemma mode_example2 : mode [70, 65] = some 65 := by decide

lemma mode_nil : mode ([] : List ℚ) = none := by
  simp [mode, seriesMode]

/-- C7: `mode` of a non-empty list returns a most frequently occurring
value, breaking frequency ties by the smallest numeric value, and `none`
(rendered NoData) on an empty list; `mode([70,70,65]) = 70` and
`mode([70,65]) = 65`. -/
theorem mode_spec :
    (∀ l : List ℚ, l = [] → mode l = none) ∧
    (∀ l : List ℚ, l ≠ [] → ∃ m, mode l = some m ∧ m ∈ l ∧
      (∀ x ∈ l, l.count x ≤ l.count m) ∧
      (∀ x ∈ l, l.count x = l.count m → m ≤ x)) ∧
    la90Mode [] = Cell.noData ∧
    mode [70, 70, 65] = some 70 ∧ mode [70, 65] = some 65 :=
  ⟨fun _ hl => hl ▸ mode_nil, mode_spec_aux, rfl, mode_example1, mode_example2⟩

theorem mode_spec_witness :
    ∃ m, mode [(3 : ℚ), 3, 7] = some m ∧ m ∈ [(3 : ℚ), 3, 7] ∧
      (∀ x ∈ [(3 : ℚ), 3, 7], List.count x [(3 : ℚ), 3, 7] ≤ List.count m [(3 : ℚ), 3, 7]) ∧
      (∀ x ∈ [(3 : ℚ), 3, 7], List.count x [(3 : ℚ), 3, 7] = List.count m [(3 : ℚ), 3, 7] → m ≤ x) :=
  mode_spec.2.1 [3, 3, 7] (by simp)


lemma rank_counts_of_sorted_ge (s : List ℚ)
    (hs : s.Pairwise fun a b : ℚ => b ≤ a) {n : ℕ} {v : ℚ}
    (h1 : 1 ≤ n) (h2 : n ≤ s.length) (hv : s[n - 1]? = some v) :
    s.countP (fun x => decide (v < x)) < n ∧
    n ≤ s.countP (fun x => decide (v ≤ x)) := by
  have hidx : n - 1 < s.length := by omega
  have hv' : s[n - 1] = v := by
    rw [List.getElem?_eq_getElem hidx] at hv
    exact Option.some_inj.mp hv
  have hpair : ∀ (i j : ℕ) (hi : i < s.length) (hj : j < s.length),
      i < j → s[j] ≤ s[i] :=
    fun i j hi hj hij => List.pairwise_iff_getElem.mp hs i j hi hj hij
  have hle : ∀ (k : ℕ) (hk : k < s.length), n - 1 ≤ k → s[k] ≤ v := by
    intro k hk hnk
    rcases eq_or_lt_of_le hnk with heq | hlt
    · subst heq
      exact le_of_eq hv'
    · have h := hpair (n - 1) k hidx hk hlt
      rw [hv'] at h
      exact h
  have hge : ∀ (j : ℕ) (hj : j < s.length), j < n - 1 → v ≤ s[j] := by
    intro j hj hjn
    have h := hpair j (n - 1) hj hidx hjn
    rw [hv'] at h
    exact h
  constructor
  · have hsplit : s.countP (fun x => decide (v < x)) =
        (s.take (n - 1)).countP (fun x => decide (v < x)) +
        (s.drop (n - 1)).countP (fun x => decide (v < x)) := by
      conv_lhs => rw [← List.take_append_drop (n - 1) s]
      rw [List.countP_append]
    have hdropzero : (s.drop (n - 1)).countP (fun x => decide (v < x)) = 0 := by
      rw [List.countP_eq_zero]
      intro a ha
      obtain ⟨j, hj, rfl⟩ := List.mem_iff_getElem.mp ha
      rw [List.getElem_drop]
      simp only [decide_eq_true_eq, not_lt]
      apply hle
      omega
    have htake_le : (s.take (n - 1)).countP (fun x => decide (v < x)) ≤ n - 1 := by
      calc (s.take (n - 1)).countP (fun x => decide (v < x)) ≤
          (s.take (n - 1)).length := List.countP_le_length _
      _ ≤ n - 1 := by rw [List.length_take]; omega
    omega
  · have hsplit : s.countP (fun x => decide (v ≤ x)) =
        (s.take (n - 1)).countP (fun x => decide (v ≤ x)) +
        (s.drop (n - 1)).countP (fun x => decide (v ≤ x)) := by
      conv_lhs => rw [← List.take_append_drop (n - 1) s]
      rw [List.countP_append]
    have htake : (s.take (n - 1)).countP (fun x => decide (v ≤ x)) = n - 1 := by
      have hall : ∀ a ∈ s.take (n - 1), decide (v ≤ a) = true := by
        intro a ha
        obtain ⟨j, hj, rfl⟩ := List.mem_iff_getElem.mp ha
        rw [List.getElem_take]
        apply decide_eq_true
        have hjn : j < n - 1 := by rw [List.length_take] at hj; omega
        exact hge j (by omega) hjn
      rw [List.countP_eq_length.mpr hall, List.length_take]
      omega
    have hdrop1 : 0 < (s.drop (n - 1)).countP (fun x => decide (v ≤ x)) := by
      rw [List.countP_pos_iff]
      have h0 : 0 < (s.drop (n - 1)).length := by rw [List.length_drop]; omega
      have he : (s.drop (n - 1))[0] = v := by
        rw [List.getElem_drop]
        simpa using hv'
      exact ⟨v, he ▸ List.getElem_mem h0, by simp⟩
    omega

lemma rank_counts_of_sorted_le (s : List ℚ)
    (hs : s.Pairwise fun a b : ℚ => a ≤ b) {n : ℕ} {v : ℚ}
    (h1 : 1 ≤ n) (h2 : n ≤ s.length) (hv : s[n - 1]? = some v) :
    s.countP (fun x => decide (x < v)) < n ∧
    n ≤ s.countP (fun x => decide (x ≤ v)) := by
  have hidx : n - 1 < s.length := by omega
  have hv' : s[n - 1] = v := by
    rw [List.getElem?_eq_getElem hidx] at hv
    exact Option.some_inj.mp hv
  have hpair : ∀ (i j : ℕ) (hi : i < s.length) (hj : j < s.length),
      i < j → s[i] ≤ s[j] :=
    fun i j hi hj hij => List.pairwise_iff_getElem.mp hs i j hi hj hij
  have hle : ∀ (k : ℕ) (hk : k < s.length), n - 1 ≤ k → v ≤ s[k] := by
    intro k hk hnk
    rcases eq_or_lt_of_le hnk with heq | hlt
    · subst heq
      exact le_of_eq hv'.symm
    · have h := hpair (n - 1) k hidx hk hlt
      rw [hv'] at h
      exact h
  have hge : ∀ (j : ℕ) (hj : j < s.length), j < n - 1 → s[j] ≤ v := by
    intro j hj hjn
    have h := hpair j (n - 1) hj hidx hjn
    rw [hv'] at h
    exact h
  constructor
  · have hsplit : s.countP (fun x => decide (x < v)) =
        (s.take (n - 1)).countP (fun x => decide (x < v)) +
        (s.drop (n - 1)).countP (fun x => decide (x < v)) := by
      conv_lhs => rw [← List.take_append_drop (n - 1) s]
      rw [List.countP_append]
    have hdropzero : (s.drop (n - 1)).countP (fun x => decide (x < v)) = 0 := by
      rw [List.countP_eq_zero]
      intro a ha
      obtain ⟨j, hj, rfl⟩ := List.mem_iff_getElem.mp ha
      rw [List.getElem_drop]
      simp only [decide_eq_true_eq, not_lt]
      apply hle
      omega
    have htake_le : (s.take (n - 1)).countP (fun x => decide (x < v)) ≤ n - 1 := by
      calc (s.take (n - 1)).countP (fun x => decide (x < v)) ≤
          (s.take (n - 1)).length := List.countP_le_length _
      _ ≤ n - 1 := by rw [List.length_take]; omega
    omega
  · have hsplit : s.countP (fun x => decide (x ≤ v)) =
        (s.take (n - 1)).countP (fun x => decide (x ≤ v)) +
        (s.drop (n - 1)).countP (fun x => decide (x ≤ v)) := by
      conv_lhs => rw [← List.take_append_drop (n - 1) s]
      rw [List.countP_append]
    have htake : (s.take (n - 1)).countP (fun x => decide (x ≤ v)) = n - 1 := by
      have hall : ∀ a ∈ s.take (n - 1), decide (a ≤ v) = true := by
        intro a ha
        obtain ⟨j, hj, rfl⟩ := List.mem_iff_getElem.mp ha
        rw [List.getElem_take]
        apply decide_eq_true
        have hjn : j < n - 1 := by rw [List.length_take] at hj; omega
        exact hge j (by omega) hjn
      rw [List.countP_eq_length.mpr hall, List.length_take]
      omega
    have hdrop1 : 0 < (s.drop (n - 1)).countP (fun x => decide (x ≤ v)) := by
      rw [List.countP_pos_iff]
      have h0 : 0 < (s.drop (n - 1)).length := by rw [List.length_drop]; omega
      have he : (s.drop (n - 1))[0] = v := by
        rw [List.getElem_drop]
        simpa using hv'
      exact ⟨v, he ▸ List.getElem_mem h0, by simp⟩
    omega


lemma sortedDesc_mergeSort (F : List ℚ) :
    (F.mergeSort fun a b => decide (b ≤ a)).Pairwise fun a b : ℚ => b ≤ a := by
  have hp := @List.sorted_mergeSort ℚ (fun a b : ℚ => decide (b ≤ a))
    (fun a b c h1 h2 => by
      simp only [decide_eq_true_eq] at *
      exact le_trans h2 h1)
    (fun a b => by simpa using le_total b a)
    F
  exact hp.imp fun h => of_decide_eq_true h

lemma sortedAsc_mergeSort (F : List ℚ) :
    (F.mergeSort fun a b => decide (a ≤ b)).Pairwise fun a b : ℚ => a ≤ b := by
  have hp := @List.sorted_mergeSort ℚ (fun a b : ℚ => decide (a ≤ b))
    (fun a b c h1 h2 => by
      simp only [decide_eq_true_eq] at *
      exact le_trans h1 h2)
    (fun a b => by simpa using le_total a b)
    F
  exact hp.imp fun h => of_decide_eq_true h

lemma nth_highest_none_iff (l : List (Option ℚ)) (n : ℕ) (h1 : 1 ≤ n) :
    nth_highest l n = none ↔ (l.filterMap id).length < n := by
  unfold nth_highest rankSelect
  split_ifs with h
  · rw [List.getElem?_eq_getElem (by rw [List.length_mergeSort]; rw [List.length_mergeSort] at h; omega)]
    rw [List.length_mergeSort] at h
    simp
    omega
  · rw [List.length_mergeSort] at h
    simp
    omega

lemma nth_lowest_none_iff (l : List (Option ℚ)) (n : ℕ) (h1 : 1 ≤ n) :
    nth_lowest l n = none ↔ (l.filterMap id).length < n := by
  unfold nth_lowest rankSelect
  split_ifs with h
  · rw [List.getElem?_eq_getElem (by rw [List.length_mergeSort]; rw [List.length_mergeSort] at h; omega)]
    rw [List.length_mergeSort] at h
    simp
    omega
  · rw [List.length_mergeSort] at h
    simp
    omega

lemma nth_highest_some (l : List (Option ℚ)) (n : ℕ) (h1 : 1 ≤ n) (v : ℚ)
    (hv : nth_highest l n = some v) :
    v ∈ l.filterMap id ∧
    (l.filterMap id).countP (fun x => decide (v < x)) < n ∧
    n ≤ (l.filterMap id).countP (fun x => decide (v ≤ x)) := by
  unfold nth_highest rankSelect at hv
  by_cases h : n ≤ ((l.filterMap id).mergeSort fun a b => decide (b ≤ a)).length
  · rw [if_pos h] at hv
    have hperm := List.mergeSort_perm (l.filterMap id) fun a b => decide (b ≤ a)
    have hcounts := rank_counts_of_sorted_ge _
      (sortedDesc_mergeSort (l.filterMap id)) h1 h hv
    exact ⟨hperm.mem_iff.mp (List.getElem?_mem hv),
      by rw [← hperm.countP_eq]; exact hcounts.1,
      by rw [← hperm.countP_eq]; exact hcounts.2⟩
  · rw [if_neg h] at hv
    exact absurd hv (by simp)

lemma nth_lowest_some (l : List (Option ℚ)) (n : ℕ) (h1 : 1 ≤ n) (v : ℚ)
    (hv : nth_lowest l n = some v) :
    v ∈ l.filterMap id ∧
    (l.filterMap id).countP (fun x => decide (x < v)) < n ∧
    n ≤ (l.filterMap id).countP (fun x => decide (x ≤ v)) := by
  unfold nth_lowest rankSelect at hv
  by_cases h : n ≤ ((l.filterMap id).mergeSort fun a b => decide (a ≤ b)).length
  · rw [if_pos h] at hv
    have hperm := List.mergeSort_perm (l.filterMap id) fun a b => decide (a ≤ b)
    have hcounts := rank_counts_of_sorted_le _
      (sortedAsc_mergeSort (l.filterMap id)) h1 h hv
    exact ⟨hperm.mem_iff.mp (List.getElem?_mem hv),
      by rw [← hperm.countP_eq]; exact hcounts.1,
      by rw [← hperm.countP_eq]; exact hcounts.2⟩
  · rw [if_neg h] at hv
    exact absurd hv (by simp)

unseal List.merge List.mergeSort in
lemma nth_highest_example1 : nth_highest [some 80, some 75, some 90] 1 = some 90 := by
  decide

unseal List.merge List.mergeSort in
lemma nth_highest_example2 : nth_highest [some 80, some 75] 3 = none := by
  decide

/-- C8: `nth_highest` and `nth_lowest` return the value at 1-based rank `n`
of the non-missing values sorted descending (resp. ascending) — i.e. a
retained value with fewer than `n` values strictly above (resp. below) it
and at least `n` values at or above (resp. at or below) it — and return the
Absent sentinel `None` exactly when fewer than `n` non-missing values
exist; `None` is rendered as `"No Data"` in the metrics map; in particular
`nth_highest([80,75,90],1) = 90` and `nth_highest([80,75],3)` is Absent. -/
theorem nth_order_spec :
    (∀ (l : List (Option ℚ)) (n : ℕ), 1 ≤ n →
      ((nth_highest l n = none ↔ (l.filterMap id).length < n) ∧
       (∀ v, nth_highest l n = some v →
         v ∈ l.filterMap id ∧
         (l.filterMap id).countP (fun x => decide (v < x)) < n ∧
         n ≤ (l.filterMap id).countP (fun x => decide (v ≤ x))))) ∧
    (∀ (l : List (Option ℚ)) (n : ℕ), 1 ≤ n →
      ((nth_lowest l n = none ↔ (l.filterMap id).length < n) ∧
       (∀ v, nth_lowest l n = some v →
         v ∈ l.filterMap id ∧
         (l.filterMap id).countP (fun x => decide (x < v)) < n ∧
         n ≤ (l.filterMap id).countP (fun x => decide (x ≤ v))))) ∧
    (∀ o : Option ℚ, renderOpt o = Cell.noData ↔ o = none) ∧
    nth_highest [some 80, some 75, some 90] 1 = some 90 ∧
    nth_highest [some 80, some 75] 3 = none :=
  ⟨fun l n h1 => ⟨nth_highest_none_iff l n h1, fun v hv => nth_highest_some l n h1 v hv⟩,
   fun l n h1 => ⟨nth_lowest_none_iff l n h1, fun v hv => nth_lowest_some l n h1 v hv⟩,
   fun o => by cases o <;> simp [renderOpt],
   nth_highest_example1, nth_highest_example2⟩

theorem nth_order_spec_witness :
    (90 : ℚ) ∈ ([some 80, some 75, some 90] : List (Option ℚ)).filterMap id ∧
    (([some 80, some 75, some 90] : List (Option ℚ)).filterMap id).countP
      (fun x => decide ((90 : ℚ) < x)) < 1 ∧
    1 ≤ (([some 80, some 75, some 90] : List (Option ℚ)).filterMap id).countP
      (fun x => decide ((90 : ℚ) ≤ x)) :=
  (nth_order_spec.1 [some 80, some 75, some 90] 1 (by norm_num)).2 90
    nth_highest_example1

end NoiseSurvey
